import Mathlib

/-!
Todo store of `src/index.js`: reducers, action creators and selectors.

A shallow embedding of the Redux part of `src/index.js` and the properties the
specification states about it.

Modelling conventions.

* Todo ids and names are strings (the application creates ids with `uuid()` and
  names from a text input; the seed ids are the strings '1' .. '10').
* A plain JavaScript object used as a dictionary is given by its own
  properties: `none` means the object has no own property of that name.  Key
  enumeration order is not represented; none of the functions embedded here
  enumerates keys.
* The property read `entities[key]` also sees what a plain object inherits
  from `Object.prototype`: see `readProperty`.
* A property of a record that may be missing is an `Option`: the seed todos
  have no `completed` property at all, and `todo.completed` then reads
  `undefined`.
* A JavaScript expression that can throw is embedded in `Except JsError`.
* An element of `state.ids` is either a string or a one-element array holding a
  string: `applyAddTodo` appends `[todo.id]`, not `todo.id`.
-/

namespace TodoApp

/-! ## JavaScript values used by the store -/

/-- The only exception the embedded code can raise: reading a property of
`undefined`. -/
inductive JsError where
  | typeError
deriving DecidableEq, Repr

/-- A dictionary object, given by its own properties (`none`: no own property
of that name). -/
abbrev Obj (α : Type) := String → Option α

/-- The object literal without properties. -/
def Obj.empty {α : Type} : Obj α := fun _ => none

/-- The object literal that spreads `o` and then sets the computed key `k` to `v`. -/
def Obj.set {α : Type} (o : Obj α) (k : String) (v : α) : Obj α :=
  fun key => if key = k then some v else o key

/-- The rest object of a destructuring that takes out the computed key `k`. -/
def Obj.rest {α : Type} (o : Obj α) (k : String) : Obj α :=
  fun key => if key = k then none else o key

/-- JavaScript truthiness of a value that is `undefined`, `true` or `false`. -/
def truthy : Option Bool → Bool
  | some b => b
  | none => false

/-- A record held in `entities`.  A field is `none` when the record has no such
property, which then reads `undefined`. -/
structure Todo where
  id : Option String
  name : Option String
  completed : Option Bool
deriving DecidableEq, Repr

/-- The names of the properties that every plain object inherits from
`Object.prototype`. -/
def objectPrototypeKeys : List String :=
  ["constructor", "__defineGetter__", "__defineSetter__", "hasOwnProperty",
   "__lookupGetter__", "__lookupSetter__", "isPrototypeOf", "propertyIsEnumerable",
   "toString", "valueOf", "__proto__", "toLocaleString"]

/-- What a value inherited from `Object.prototype` (a function, or the prototype
object itself) is to the embedded code: it has no enumerable own property to
spread, and its `id` and `completed` read `undefined`. -/
def inheritedValue : Todo := { id := none, name := none, completed := none }

/-- The property read `entities[key]`: the own property if there is one, else
the inherited value for a name of `Object.prototype`, else `undefined`. -/
def readProperty (entities : Obj Todo) (key : String) : Option Todo :=
  match entities key with
  | some t => some t
  | none => if key ∈ objectPrototypeKeys then some inheritedValue else none

/-- An element of the `ids` array: a string, or the one-element array `[s]`. -/
inductive IdEntry where
  | str (s : String)
  | arr (s : String)
deriving DecidableEq, Repr

/-- The property key an element of `ids` turns into when it is used in
`entities[id]`: a string is itself, the array `[s]` is joined to `s`. -/
def IdEntry.toPropertyKey : IdEntry → String
  | .str s => s
  | .arr s => s

/-- The values of the `filterState` slice that the interface can set. -/
inductive Filter where
  | SHOW_ALL
  | SHOW_COMPLETED
  | SHOW_INCOMPLETED
deriving DecidableEq, Repr

/-- The `todoState` slice. -/
structure TodoState where
  entities : Obj Todo
  ids : List IdEntry

/-- The `notificationState` slice: todo id to display text. -/
abbrev NotificationState := Obj String

/-- The combined store state. -/
structure State where
  todoState : TodoState
  filterState : Filter
  notificationState : NotificationState

/-- The action records, by their `type` tag. -/
inductive Action where
  | TODO_ADD (id name : String)
  | TODO_TOGGLE (id : String)
  | FILTER_SET (filter : Filter)
  | NOTIFICATION_SHOW (text id : String)
  | NOTIFICATION_HIDE (id : String)
  | other (type : String)
deriving DecidableEq, Repr

/-! ## Seed data -/

/-- A record of the `todos` literal: an id and a name, nothing else. -/
structure SeedTodo where
  id : String
  name : String
deriving DecidableEq, Repr

/-- The constant `todos`. -/
def todos : List SeedTodo :=
  [ { id := "1", name := "Hands On: Redux Standalone with advanced Actions" },
    { id := "2", name := "Hands On: Redux Standalone with advanced Reducers" },
    { id := "3", name := "Hands On: Bootstrap App with Redux" },
    { id := "4", name := "Hands On: Naive Todo with React and Redux" },
    { id := "5", name := "Hands On: Sophisticated Todo with React and Redux" },
    { id := "6", name := "Hands On: Connecting State Everywhere" },
    { id := "7", name := "Hands On: Todo with advanced Redux" },
    { id := "8", name := "Hands On: Todo but more Features" },
    { id := "9", name := "Hands On: Todo with Notifications" },
    { id := "10", name := "Hands On: Hacker News with Redux" } ]

/-- The library call `normalize(todos, [todoSchema])` for a flat array of
records with distinct ids: `entities.todo` maps each id to its record (which
has the properties of the input record, so no `completed`) and `result` lists
the ids in input order. -/
def normalize (ts : List SeedTodo) : Obj Todo × List IdEntry :=
  (ts.foldl (fun o t => o.set t.id { id := some t.id, name := some t.name, completed := none })
     Obj.empty,
   ts.map (fun t => IdEntry.str t.id))

/-- The constant `normalizedTodos`. -/
def normalizedTodos : Obj Todo × List IdEntry := normalize todos

/-- The constant `initialTodoState`. -/
def initialTodoState : TodoState :=
  { entities := normalizedTodos.1, ids := normalizedTodos.2 }

/-- The state of the store after `createStore(rootReducer, undefined, ...)`:
every slice reducer starts from its default parameter. -/
def initialState : State :=
  { todoState := initialTodoState, filterState := Filter.SHOW_ALL,
    notificationState := Obj.empty }

/-! ## Action creators -/

/-- The action creator `doAddTodo`. -/
def doAddTodo (id name : String) : Action := Action.TODO_ADD id name

/-- The action creator `doToggleTodo`. -/
def doToggleTodo (id : String) : Action := Action.TODO_TOGGLE id

/-- The action creator `doSetFilter`. -/
def doSetFilter (filter : Filter) : Action := Action.FILTER_SET filter

/-- The action creator `doShowNotification`. -/
def doShowNotification (text id : String) : Action := Action.NOTIFICATION_SHOW text id

/-- The action creator `doRemoveNotification`. -/
def doRemoveNotification (id : String) : Action := Action.NOTIFICATION_HIDE id

/-! ## Reducers -/

/-- The function `applyAddTodo`, on the `todo` payload `{id, name}` of the action. -/
def applyAddTodo (state : TodoState) (id name : String) : TodoState :=
  let todo : Todo := { id := some id, name := some name, completed := some false }
  let entities := state.entities.set id todo
  let ids := state.ids ++ [IdEntry.arr id]
  { state with entities := entities, ids := ids }

/-- The function `applyToggleTodo`, on the id of the action payload.  Reading
`.completed` of `undefined` throws. -/
def applyToggleTodo (state : TodoState) (id : String) : Except JsError TodoState :=
  match readProperty state.entities id with
  | none => Except.error JsError.typeError
  | some t =>
    let toggledTodo : Todo := { t with completed := some (!(truthy t.completed)) }
    let entities := state.entities.set id toggledTodo
    Except.ok { state with entities := entities }

/-- The reducer `todoReducer`. -/
def todoReducer (state : TodoState) (action : Action) : Except JsError TodoState :=
  match action with
  | Action.TODO_ADD id name => Except.ok (applyAddTodo state id name)
  | Action.TODO_TOGGLE id => applyToggleTodo state id
  | _ => Except.ok state

/-- The function `applySetFilter`. -/
def applySetFilter (_state : Filter) (filter : Filter) : Filter := filter

/-- The reducer `filterReducer`. -/
def filterReducer (state : Filter) (action : Action) : Filter :=
  match action with
  | Action.FILTER_SET filter => applySetFilter state filter
  | _ => state

/-- The function `applyShowNotification`, on the `todo` payload of the action. -/
def applyShowNotification (state : NotificationState) (id name : String) : NotificationState :=
  state.set id ("Todo Created " ++ name)

/-- The function `applyRemoveNotification`. -/
def applyRemoveNotification (state : NotificationState) (id : String) : NotificationState :=
  let restNotifications := state.rest id
  restNotifications

/-- The reducer `notificationReducer`. -/
def notificationReducer (state : NotificationState) (action : Action) : NotificationState :=
  match action with
  | Action.TODO_ADD id name => applyShowNotification state id name
  | Action.NOTIFICATION_HIDE id => applyRemoveNotification state id
  | _ => state

/-- The reducer `rootReducer` built by `combineReducers`: every slice reducer
receives its slice and the same action, in the order of the keys. -/
def rootReducer (state : State) (action : Action) : Except JsError State := do
  let todoState ← todoReducer state.todoState action
  let filterState := filterReducer state.filterState action
  let notificationState := notificationReducer state.notificationState action
  return { todoState := todoState, filterState := filterState,
           notificationState := notificationState }

/-! ## Selectors -/

/-- The table `VISIBILITY_FILTERS`, applied to an array element that may be
`undefined`.  The result is the truthiness of what the predicate returns. -/
def VISIBILITY_FILTERS : Filter → Option Todo → Except JsError Bool
  | Filter.SHOW_COMPLETED, some item => Except.ok (truthy item.completed)
  | Filter.SHOW_COMPLETED, none => Except.error JsError.typeError
  | Filter.SHOW_INCOMPLETED, some item => Except.ok (!(truthy item.completed))
  | Filter.SHOW_INCOMPLETED, none => Except.error JsError.typeError
  | Filter.SHOW_ALL, _ => Except.ok true

/-- The array method `filter` with a callback that can throw. -/
def arrayFilter {α : Type} (p : α → Except JsError Bool) : List α → Except JsError (List α)
  | [] => Except.ok []
  | x :: xs =>
    match p x with
    | Except.error e => Except.error e
    | Except.ok keep =>
      match arrayFilter p xs with
      | Except.error e => Except.error e
      | Except.ok rest => Except.ok (if keep then x :: rest else rest)

/-- The array method `map` with a callback that can throw. -/
def arrayMap {α β : Type} (f : α → Except JsError β) : List α → Except JsError (List β)
  | [] => Except.ok []
  | x :: xs =>
    match f x with
    | Except.error e => Except.error e
    | Except.ok y =>
      match arrayMap f xs with
      | Except.error e => Except.error e
      | Except.ok rest => Except.ok (y :: rest)

/-- The callback `todo => todo.id` on an array element that may be `undefined`.
The result is the value of the property, `none` when the record has no id. -/
def todoId : Option Todo → Except JsError (Option String)
  | some todo => Except.ok todo.id
  | none => Except.error JsError.typeError

/-- The selector `getTodosAsIds`. -/
def getTodosAsIds (state : State) : Except JsError (List (Option String)) :=
  match arrayFilter (VISIBILITY_FILTERS state.filterState)
      (state.todoState.ids.map
        (fun id => readProperty state.todoState.entities id.toPropertyKey)) with
  | Except.error e => Except.error e
  | Except.ok visible => arrayMap todoId visible

/-! ## The thunk and its effects -/

/-- What running a thunk does to the outside: it hands an action to `dispatch`,
or it registers a timer with a delay in milliseconds and the effects its
callback has when it fires. -/
inductive Effect where
  | dispatched (action : Action)
  | timer (ms : Nat) (callback : List Effect)

/-- The call `setTimeout(callback, ms)`: registers one timer. -/
def setTimeout (callback : List Effect) (ms : Nat) : List Effect :=
  [Effect.timer ms callback]

/-- The function returned by `thunkedDoAddTodo(id, name)`, run with `dispatch`. -/
def thunkedDoAddTodo (id name : String) (dispatch : Action → List Effect) : List Effect :=
  dispatch (doAddTodo id name) ++
  setTimeout (dispatch (doRemoveNotification id)) 5000

/-- The dispatch function that only records the action it is given. -/
def recordDispatch (action : Action) : List Effect := [Effect.dispatched action]

/-! ## Specification-side notions -/

deriving instance DecidableEq for Except

/-- The TodoCollection invariant: every element of `ids` has an entry (an own
property) in `entities`. -/
def idsHaveEntities (s : TodoState) : Prop :=
  ∀ k ∈ s.ids, (s.entities k.toPropertyKey).isSome = true

instance (s : TodoState) : Decidable (idsHaveEntities s) := by
  unfold idsHaveEntities; infer_instance

/-- States that `todoReducer` can produce from `initialTodoState`. -/
inductive Reachable : TodoState → Prop where
  | init : Reachable initialTodoState
  | step (s t : TodoState) (a : Action) : Reachable s → todoReducer s a = Except.ok t → Reachable t

/-- States that the store can hold: what `rootReducer` can produce from
`initialState`. -/
inductive StoreReachable : State → Prop where
  | init : StoreReachable initialState
  | step (s t : State) (a : Action) :
      StoreReachable s → rootReducer s a = Except.ok t → StoreReachable t

/-- Every entity that an element of `ids` resolves to carries that key as its
id. -/
def keyedById (s : TodoState) : Prop :=
  ∀ k ∈ s.ids, ∀ t ∈ s.entities k.toPropertyKey, t.id = some k.toPropertyKey

instance (s : TodoState) : Decidable (keyedById s) := by
  unfold keyedById; infer_instance

/-- The predicate of the active filter in the words of the specification:
all, completed, not completed. -/
def satisfiesFilter : Filter → Todo → Bool
  | Filter.SHOW_ALL, _ => true
  | Filter.SHOW_COMPLETED, t => decide (t.completed = some true)
  | Filter.SHOW_INCOMPLETED, t => decide (t.completed ≠ some true)

/-- The visible ids in the words of the specification: walk `ids` in order,
keep the todos that satisfy the active filter, give their ids. -/
def visibleIds (s : State) : List (Option String) :=
  s.todoState.ids.filterMap (fun k =>
    match s.todoState.entities k.toPropertyKey with
    | some t => if satisfiesFilter s.filterState t then some t.id else none
    | none => none)

/-- The elements of `xs` at the positions where `mask` is `true`, in order. -/
def pick {α : Type} (xs : List α) (mask : List Bool) : List α :=
  ((xs.zip mask).filter (fun p => p.2)).map (fun p => p.1)

/-- The state of the specification example: the single todo
`{id: 1, name: 'A', completed: false}` with the given filter. -/
def exampleState (filter : Filter) : State :=
  { todoState :=
      { entities := Obj.empty.set "1"
          { id := some "1", name := some "A", completed := some false },
        ids := [IdEntry.str "1"] },
    filterState := filter,
    notificationState := Obj.empty }

/-! ## Dictionary lemmas -/

theorem Obj.set_same {α : Type} (o : Obj α) (k : String) (v : α) : o.set k v k = some v := by
  simp [Obj.set]

theorem Obj.set_other {α : Type} (o : Obj α) (k key : String) (v : α) (h : key ≠ k) :
    o.set k v key = o key := by
  simp [Obj.set, h]

theorem Obj.set_set {α : Type} (o : Obj α) (k : String) (v w : α) :
    (o.set k v).set k w = o.set k w := by
  funext key
  by_cases h : key = k <;> simp [Obj.set, h]

theorem Obj.set_self {α : Type} (o : Obj α) (k : String) (v : α) (h : o k = some v) :
    o.set k v = o := by
  funext key
  by_cases hk : key = k
  · subst hk; simp [Obj.set, h]
  · simp [Obj.set, hk]

theorem Obj.rest_same {α : Type} (o : Obj α) (k : String) : o.rest k k = none := by
  simp [Obj.rest]

theorem Obj.rest_other {α : Type} (o : Obj α) (k key : String) (h : key ≠ k) :
    o.rest k key = o key := by
  simp [Obj.rest, h]

theorem Obj.rest_set {α : Type} (o : Obj α) (k : String) (v : α) (h : o k = none) :
    (o.set k v).rest k = o := by
  funext key
  by_cases hk : key = k
  · subst hk; simp [Obj.rest, h]
  · simp [Obj.rest, Obj.set, hk]

theorem readProperty_own (entities : Obj Todo) (key : String) (t : Todo)
    (h : entities key = some t) : readProperty entities key = some t := by
  simp [readProperty, h]

theorem readProperty_undefined (entities : Obj Todo) (key : String)
    (h : entities key = none) (hk : key ∉ objectPrototypeKeys) :
    readProperty entities key = none := by
  simp [readProperty, h, hk]

theorem readProperty_inherited (entities : Obj Todo) (key : String)
    (h : entities key = none) (hk : key ∈ objectPrototypeKeys) :
    readProperty entities key = some inheritedValue := by
  simp [readProperty, h, hk]

/-! ## Reducer lemmas -/

theorem todoReducer_toggle_some (state : TodoState) (id : String) (t : Todo)
    (h : state.entities id = some t) :
    todoReducer state (doToggleTodo id) =
      Except.ok { state with
        entities := state.entities.set id { t with completed := some (!(truthy t.completed)) } } := by
  simp [todoReducer, doToggleTodo, applyToggleTodo, readProperty_own _ _ _ h]

theorem todoReducer_toggle_none (state : TodoState) (id : String)
    (h : state.entities id = none) (hk : id ∉ objectPrototypeKeys) :
    todoReducer state (doToggleTodo id) = Except.error JsError.typeError := by
  simp [todoReducer, doToggleTodo, applyToggleTodo, readProperty_undefined _ _ h hk]

theorem todoReducer_toggle_inherited (state : TodoState) (id : String)
    (h : state.entities id = none) (hk : id ∈ objectPrototypeKeys) :
    todoReducer state (doToggleTodo id) =
      Except.ok { state with
        entities := state.entities.set id { id := none, name := none, completed := some true } } := by
  simp [todoReducer, doToggleTodo, applyToggleTodo, readProperty_inherited _ _ h hk,
    inheritedValue, truthy]

theorem idsHaveEntities_add (s : TodoState) (id name : String) (h : idsHaveEntities s) :
    idsHaveEntities (applyAddTodo s id name) := by
  intro k hk
  simp only [applyAddTodo, List.mem_append, List.mem_singleton] at hk ⊢
  rcases hk with hk | hk
  · by_cases e : k.toPropertyKey = id
    · simp [Obj.set, e]
    · simpa [Obj.set, e] using h k hk
  · subst hk
    simp [Obj.set, IdEntry.toPropertyKey]

theorem idsHaveEntities_set (s : TodoState) (id : String) (v : Todo) (h : idsHaveEntities s) :
    idsHaveEntities { s with entities := s.entities.set id v } := by
  intro k hk
  by_cases e : k.toPropertyKey = id
  · simp [Obj.set, e]
  · simpa [Obj.set, e] using h k hk

/-- A toggle that returns a state returns the input state with one entity set. -/
theorem todoReducer_toggle_ok (s t : TodoState) (id : String)
    (hstep : todoReducer s (Action.TODO_TOGGLE id) = Except.ok t) :
    ∃ v : Todo, t = { s with entities := s.entities.set id v } ∧
      (∀ u, s.entities id = some u → v.id = u.id) := by
  cases hent : s.entities id with
  | none =>
    by_cases hk : id ∈ objectPrototypeKeys
    · have := todoReducer_toggle_inherited s id hent hk
      simp only [doToggleTodo] at this
      rw [this] at hstep
      cases hstep
      exact ⟨_, rfl, fun u hu => by cases hu⟩
    · have := todoReducer_toggle_none s id hent hk
      simp only [doToggleTodo] at this
      rw [this] at hstep
      cases hstep
  | some v =>
    have := todoReducer_toggle_some s id v hent
    simp only [doToggleTodo] at this
    rw [this] at hstep
    cases hstep
    exact ⟨_, rfl, fun u hu => by cases hu; rfl⟩

theorem todoReducer_other (s : TodoState) (a : Action)
    (hadd : ∀ id name, a ≠ Action.TODO_ADD id name) (htoggle : ∀ id, a ≠ Action.TODO_TOGGLE id) :
    todoReducer s a = Except.ok s := by
  cases a with
  | TODO_ADD id name => exact absurd rfl (hadd id name)
  | TODO_TOGGLE id => exact absurd rfl (htoggle id)
  | FILTER_SET f => rfl
  | NOTIFICATION_SHOW x y => rfl
  | NOTIFICATION_HIDE x => rfl
  | other x => rfl

theorem idsHaveEntities_step (s t : TodoState) (a : Action) (h : idsHaveEntities s)
    (hstep : todoReducer s a = Except.ok t) : idsHaveEntities t := by
  cases a with
  | TODO_ADD id name =>
    simp only [todoReducer, Except.ok.injEq] at hstep
    subst hstep
    exact idsHaveEntities_add s id name h
  | TODO_TOGGLE id =>
    obtain ⟨v, hv, _⟩ := todoReducer_toggle_ok s t id hstep
    subst hv
    exact idsHaveEntities_set s id v h
  | FILTER_SET f => simp only [todoReducer, Except.ok.injEq] at hstep; subst hstep; exact h
  | NOTIFICATION_SHOW x y => simp only [todoReducer, Except.ok.injEq] at hstep; subst hstep; exact h
  | NOTIFICATION_HIDE x => simp only [todoReducer, Except.ok.injEq] at hstep; subst hstep; exact h
  | other x => simp only [todoReducer, Except.ok.injEq] at hstep; subst hstep; exact h

theorem keyedById_step (s t : TodoState) (a : Action) (h : idsHaveEntities s)
    (hkey : keyedById s) (hstep : todoReducer s a = Except.ok t) : keyedById t := by
  cases a with
  | TODO_ADD id name =>
    simp only [todoReducer, Except.ok.injEq] at hstep
    subst hstep
    intro k hk u hu
    simp only [applyAddTodo, List.mem_append, List.mem_singleton] at hk hu
    by_cases e : k.toPropertyKey = id
    · simp only [Obj.set, e, if_true, Option.mem_def, Option.some.injEq] at hu
      subst hu
      simp [e]
    · rcases hk with hk | hk
      · simp only [Obj.set, e, if_false] at hu
        exact hkey k hk u hu
      · subst hk
        exact absurd rfl e
  | TODO_TOGGLE id =>
    obtain ⟨v, hv, hid⟩ := todoReducer_toggle_ok s t id hstep
    subst hv
    intro k hk u hu
    by_cases e : k.toPropertyKey = id
    · simp only [Obj.set, e, if_true, Option.mem_def, Option.some.injEq] at hu
      subst hu
      have hs := h k hk
      rw [e] at hs
      cases hent : s.entities id with
      | none => simp [hent] at hs
      | some w =>
        rw [hid w hent]
        have := hkey k hk w (by rw [e]; exact hent)
        rw [this, e]
    · simp only [Obj.set, e, if_false] at hu
      exact hkey k hk u hu
  | FILTER_SET f => simp only [todoReducer, Except.ok.injEq] at hstep; subst hstep; exact hkey
  | NOTIFICATION_SHOW x y =>
    simp only [todoReducer, Except.ok.injEq] at hstep; subst hstep; exact hkey
  | NOTIFICATION_HIDE x =>
    simp only [todoReducer, Except.ok.injEq] at hstep; subst hstep; exact hkey
  | other x => simp only [todoReducer, Except.ok.injEq] at hstep; subst hstep; exact hkey

theorem rootReducer_todoState (s t : State) (a : Action)
    (hstep : rootReducer s a = Except.ok t) :
    todoReducer s.todoState a = Except.ok t.todoState := by
  unfold rootReducer at hstep
  cases hr : todoReducer s.todoState a with
  | error e => rw [hr] at hstep; cases hstep
  | ok u => rw [hr] at hstep; cases hstep; rfl

theorem storeReachable_invariants (s : State) (h : StoreReachable s) :
    idsHaveEntities s.todoState ∧ keyedById s.todoState := by
  induction h with
  | init => exact ⟨by decide, by decide⟩
  | step s t a _ hstep ih =>
    have hs := rootReducer_todoState s t a hstep
    exact ⟨idsHaveEntities_step _ _ a ih.1 hs, keyedById_step _ _ a ih.1 ih.2 hs⟩

/-! ## Selector lemmas -/

theorem VISIBILITY_FILTERS_some (f : Filter) (t : Todo) :
    VISIBILITY_FILTERS f (some t) = Except.ok (satisfiesFilter f t) := by
  cases f <;> cases hc : t.completed <;>
    simp [VISIBILITY_FILTERS, satisfiesFilter, truthy, hc]

theorem arrayFilter_some (f : Filter) (ts : List Todo) :
    arrayFilter (VISIBILITY_FILTERS f) (ts.map some) =
      Except.ok ((ts.filter (satisfiesFilter f)).map some) := by
  induction ts with
  | nil => rfl
  | cons t ts ih =>
    simp only [List.map_cons, arrayFilter, VISIBILITY_FILTERS_some, ih, List.filter_cons]
    cases satisfiesFilter f t <;> simp

theorem arrayMap_some (ts : List Todo) :
    arrayMap todoId (ts.map some) = Except.ok (ts.map (fun t => t.id)) := by
  induction ts with
  | nil => rfl
  | cons t ts ih => simp [arrayMap, todoId, ih]

theorem map_eq_filterMap_some {α β : Type} (g : α → Option β) (l : List α)
    (h : ∀ x ∈ l, (g x).isSome = true) : l.map g = (l.filterMap g).map some := by
  induction l with
  | nil => rfl
  | cons x xs ih =>
    have hx := h x (List.mem_cons_self x xs)
    have hxs : ∀ y ∈ xs, (g y).isSome = true := fun y hy => h y (List.mem_cons_of_mem x hy)
    cases hg : g x with
    | none => simp [hg] at hx
    | some v => simp [List.filterMap_cons, hg, ih hxs]

theorem filterMap_filter_map {α β γ : Type} (g : α → Option β) (p : β → Bool) (q : β → γ)
    (l : List α) :
    ((l.filterMap g).filter p).map q =
      l.filterMap (fun k => match g k with
        | some t => if p t then some (q t) else none
        | none => none) := by
  induction l with
  | nil => rfl
  | cons x xs ih =>
    cases hg : g x with
    | none => simp [List.filterMap_cons, hg, ih]
    | some v =>
      cases hp : p v <;> simp [List.filterMap_cons, hg, hp, List.filter_cons, ih]

/-- Where every element of `ids` has an own entity, the reads of `getTodosAsIds`
are the own entities. -/
theorem map_readProperty_own (t : TodoState) (h : idsHaveEntities t) :
    t.ids.map (fun id => readProperty t.entities id.toPropertyKey) =
      t.ids.map (fun id => t.entities id.toPropertyKey) := by
  apply List.map_congr_left
  intro k hk
  have hs := h k hk
  cases hent : t.entities k.toPropertyKey with
  | none => simp [hent] at hs
  | some v => exact readProperty_own _ _ _ hent

theorem getTodosAsIds_resolved (s : State) (h : idsHaveEntities s.todoState) :
    getTodosAsIds s =
      Except.ok (((s.todoState.ids.filterMap
        (fun k => s.todoState.entities k.toPropertyKey)).filter
          (satisfiesFilter s.filterState)).map (fun t => t.id)) := by
  unfold getTodosAsIds
  rw [map_readProperty_own s.todoState h]
  rw [map_eq_filterMap_some (fun (k : IdEntry) => s.todoState.entities k.toPropertyKey)
    s.todoState.ids h]
  rw [arrayFilter_some]
  simp only [arrayMap_some]

theorem getTodosAsIds_visibleIds (s : State) (h : idsHaveEntities s.todoState) :
    getTodosAsIds s = Except.ok (visibleIds s) := by
  rw [getTodosAsIds_resolved s h, filterMap_filter_map]
  unfold visibleIds
  congr 2
  funext k
  cases s.todoState.entities k.toPropertyKey <;> rfl

theorem pick_map_map {α : Type} (q : Todo → α) (c : Todo → Bool) (ts : List Todo) :
    pick (ts.map q) (ts.map c) = (ts.filter c).map q := by
  induction ts with
  | nil => rfl
  | cons t ts ih =>
    simp only [pick] at ih ⊢
    cases hc : c t <;> simp [List.filter_cons, hc, ih]

theorem pick_length_add {α : Type} (xs : List α) (mask : List Bool) :
    (pick xs mask).length + (pick xs (mask.map not)).length = min xs.length mask.length := by
  induction xs generalizing mask with
  | nil => simp [pick]
  | cons x xs ih =>
    cases mask with
    | nil => simp [pick]
    | cons b bs =>
      have := ih bs
      simp only [pick, List.length_map] at this ⊢
      cases b <;> simp [List.filter_cons] <;> omega

theorem pick_perm {α : Type} (xs : List α) (mask : List Bool) (h : mask.length = xs.length) :
    (pick xs mask ++ pick xs (mask.map not)).Perm xs := by
  induction xs generalizing mask with
  | nil => simp [pick]
  | cons x xs ih =>
    cases mask with
    | nil => simp at h
    | cons b bs =>
      have hb : bs.length = xs.length := by simpa using h
      have := ih bs hb
      simp only [pick] at this ⊢
      cases b
      · simp only [List.zip_cons_cons, List.map_cons, Bool.not_false, List.filter_cons]
        simp only [Bool.false_eq_true, if_false, if_true, List.map_cons]
        exact (List.perm_middle).trans (List.Perm.cons x this)
      · simp only [List.zip_cons_cons, List.map_cons, Bool.not_true, List.filter_cons]
        simp only [Bool.false_eq_true, if_false, if_true, List.map_cons, List.cons_append]
        exact List.Perm.cons x this

theorem rootReducer_add (s : State) (id name : String) :
    rootReducer s (doAddTodo id name) =
      Except.ok { todoState := applyAddTodo s.todoState id name,
                  filterState := s.filterState,
                  notificationState := applyShowNotification s.notificationState id name } :=
  rfl

theorem visibleIds_add (s : State) (id name : String)
    (hinv : idsHaveEntities s.todoState) (hall : s.filterState = Filter.SHOW_ALL)
    (hkey : keyedById s.todoState) :
    visibleIds { todoState := applyAddTodo s.todoState id name,
                 filterState := s.filterState,
                 notificationState := applyShowNotification s.notificationState id name } =
      visibleIds s ++ [some id] := by
  unfold visibleIds
  simp only [applyAddTodo, hall, List.filterMap_append]
  congr 1
  · apply List.filterMap_congr
    intro k hk
    by_cases e : k.toPropertyKey = id
    · cases hent : s.todoState.entities k.toPropertyKey with
      | none =>
        have hs := hinv k hk
        simp [hent] at hs
      | some t =>
        have := hkey k hk t hent
        simp [Obj.set, e, satisfiesFilter, hent, this]
    · simp [Obj.set, e]
  · simp [Obj.set, IdEntry.toPropertyKey, satisfiesFilter]

/-! ## The claims -/

/-- C1: in every state the store can hold (a state that the root reducer
produces from the initial state) in which every element of `ids` has an entity
and the filter is SHOW_ALL, the root reducer accepts `doAddTodo(id, name)` and
afterwards `getTodosAsIds` returns the list it returned before followed by one
more element, the new id. -/
theorem getTodosAsIds_add_appends (s : State) (id name : String)
    (hstore : StoreReachable s) (hinv : idsHaveEntities s.todoState)
    (hall : s.filterState = Filter.SHOW_ALL) :
    ∃ (before : List (Option String)) (after : State),
      getTodosAsIds s = Except.ok before ∧
      rootReducer s (doAddTodo id name) = Except.ok after ∧
      getTodosAsIds after = Except.ok (before ++ [some id]) ∧
      (before ++ [some id]).length = before.length + 1 := by
  refine ⟨visibleIds s, _, getTodosAsIds_visibleIds s hinv, rootReducer_add s id name, ?_, ?_⟩
  · rw [getTodosAsIds_visibleIds _ (idsHaveEntities_add s.todoState id name hinv)]
    rw [visibleIds_add s id name hinv hall (storeReachable_invariants s hstore).2]
  · simp

/-- C1 witness: adding the id '1' a second time to the initial store state. -/
theorem getTodosAsIds_add_appends_witness :
    (StoreReachable initialState ∧ idsHaveEntities initialState.todoState ∧
      initialState.filterState = Filter.SHOW_ALL) ∧
    ∃ (before : List (Option String)) (after : State),
      getTodosAsIds initialState = Except.ok before ∧
      rootReducer initialState (doAddTodo "1" "again") = Except.ok after ∧
      getTodosAsIds after = Except.ok (before ++ [some "1"]) ∧
      (before ++ [some "1"]).length = before.length + 1 :=
  ⟨⟨StoreReachable.init, by decide, rfl⟩,
    getTodosAsIds_add_appends initialState "1" "again" StoreReachable.init (by decide) rfl⟩

/-- C2, as amended: for an id with an entity, two toggles succeed and leave the
ids, the other entities and the id and name of the todo as they were; its
`completed` is the truthiness of the original value (the original boolean, or
false when the property was absent), and when the original value is a boolean
the whole todo state equals the original one. -/
theorem toggle_twice (state : TodoState) (id : String) (t : Todo)
    (h : state.entities id = some t) :
    ∃ s1 s2 : TodoState,
      todoReducer state (doToggleTodo id) = Except.ok s1 ∧
      todoReducer s1 (doToggleTodo id) = Except.ok s2 ∧
      s2.entities = state.entities.set id { t with completed := some (truthy t.completed) } ∧
      s2.ids = state.ids ∧
      (∀ b : Bool, t.completed = some b → s2 = state) := by
  refine ⟨_, _, todoReducer_toggle_some state id t h,
    todoReducer_toggle_some _ id { t with completed := some (!(truthy t.completed)) }
      (Obj.set_same _ _ _), ?_, rfl, ?_⟩
  · simp [Obj.set_set, truthy]
  · intro b hb
    have ht : ({ t with completed := some (truthy t.completed) } : Todo) = t := by
      cases t with
      | mk i n c => simp only [truthy] at hb ⊢; subst hb; rfl
    cases state with
    | mk entities ids =>
      simp only [Obj.set_set, truthy, Bool.not_not, TodoState.mk.injEq, and_true]
      have := Obj.set_self entities id t h
      rw [← ht] at this
      simpa [truthy] using this

/-- C2 witness: toggling a todo that was added with `completed: false`. -/
theorem toggle_twice_witness :
    (applyAddTodo initialTodoState "11" "x").entities "11" =
        some { id := some "11", name := some "x", completed := some false } ∧
    ∃ s1 s2 : TodoState,
      todoReducer (applyAddTodo initialTodoState "11" "x") (doToggleTodo "11") = Except.ok s1 ∧
      todoReducer s1 (doToggleTodo "11") = Except.ok s2 ∧
      s2.entities = (applyAddTodo initialTodoState "11" "x").entities.set "11"
        { ({ id := some "11", name := some "x", completed := some false } : Todo) with
          completed := some (truthy (some false)) } ∧
      s2.ids = (applyAddTodo initialTodoState "11" "x").ids ∧
      (∀ b : Bool, (some false : Option Bool) = some b →
        s2 = applyAddTodo initialTodoState "11" "x") :=
  ⟨by decide, toggle_twice (applyAddTodo initialTodoState "11" "x") "11"
    { id := some "11", name := some "x", completed := some false } (by decide)⟩

/-- C2 counterexample: the seed todo '1' has no `completed` property; after two
toggles its `completed` is `false`, so the todo state is not the initial one. -/
theorem toggle_twice_counterexample :
    (initialTodoState.entities "1").map Todo.completed = some none ∧
    ∃ s1 s2 : TodoState,
      todoReducer initialTodoState (doToggleTodo "1") = Except.ok s1 ∧
      todoReducer s1 (doToggleTodo "1") = Except.ok s2 ∧
      (s2.entities "1").map Todo.completed = some (some false) ∧
      s2 ≠ initialTodoState :=
  ⟨by decide, _, _, rfl, rfl, by decide, fun h => by
    have := congrArg (fun s => (s.entities "1").map Todo.completed) h
    revert this
    decide⟩


/-- C3: when every element of `ids` has an entity, the list returned under
SHOW_ALL has one element per position of `ids`, and there is a set of positions
(a mask) such that SHOW_COMPLETED returns the elements at the positions in the
set and SHOW_INCOMPLETED the elements at the positions outside it: no position
is in both lists, every position is in one of them. -/
theorem completed_incompleted_partition (t : TodoState) (n : NotificationState)
    (h : idsHaveEntities t) :
    ∃ (all : List (Option String)) (mask : List Bool),
      all.length = t.ids.length ∧ mask.length = all.length ∧
      getTodosAsIds { todoState := t, filterState := Filter.SHOW_ALL,
                      notificationState := n } = Except.ok all ∧
      getTodosAsIds { todoState := t, filterState := Filter.SHOW_COMPLETED,
                      notificationState := n } = Except.ok (pick all mask) ∧
      getTodosAsIds { todoState := t, filterState := Filter.SHOW_INCOMPLETED,
                      notificationState := n } = Except.ok (pick all (mask.map not)) ∧
      (pick all mask).length + (pick all (mask.map not)).length = all.length ∧
      (pick all mask ++ pick all (mask.map not)).Perm all := by
  let ts := t.ids.filterMap (fun k => t.entities k.toPropertyKey)
  have hlen : ts.length = t.ids.length := by
    have := congrArg List.length
      (map_eq_filterMap_some (fun (k : IdEntry) => t.entities k.toPropertyKey) t.ids h)
    simp only [List.length_map] at this
    exact this.symm
  have hc : satisfiesFilter Filter.SHOW_COMPLETED = fun x => truthy x.completed := by
    funext x; cases hx : x.completed <;> simp [satisfiesFilter, truthy, hx]
  have hi : satisfiesFilter Filter.SHOW_INCOMPLETED = fun x => !(truthy x.completed) := by
    funext x; cases hx : x.completed <;> simp [satisfiesFilter, truthy, hx]
  have ha : satisfiesFilter Filter.SHOW_ALL = fun _ => true := by
    funext x; rfl
  have hmask : (ts.map (fun x => truthy x.completed)).map not =
      ts.map (fun x => !(truthy x.completed)) := by simp
  refine ⟨ts.map (fun x => x.id), ts.map (fun x => truthy x.completed), ?_, ?_, ?_, ?_, ?_, ?_, ?_⟩
  · simpa using hlen
  · simp
  · rw [getTodosAsIds_resolved _ h]
    simp only [ha, List.filter_true]
  · rw [getTodosAsIds_resolved _ h, pick_map_map]
    simp only [hc]
  · rw [getTodosAsIds_resolved _ h, hmask, pick_map_map]
    simp only [hi]
  · rw [pick_length_add]; simp
  · exact pick_perm _ _ (by simp)

/-- C3 witness: the initial todo state. -/
theorem completed_incompleted_partition_witness :
    idsHaveEntities initialTodoState ∧
    ∃ (all : List (Option String)) (mask : List Bool),
      all.length = initialTodoState.ids.length ∧ mask.length = all.length ∧
      getTodosAsIds { todoState := initialTodoState, filterState := Filter.SHOW_ALL,
                      notificationState := Obj.empty } = Except.ok all ∧
      getTodosAsIds { todoState := initialTodoState, filterState := Filter.SHOW_COMPLETED,
                      notificationState := Obj.empty } = Except.ok (pick all mask) ∧
      getTodosAsIds { todoState := initialTodoState, filterState := Filter.SHOW_INCOMPLETED,
                      notificationState := Obj.empty } = Except.ok (pick all (mask.map not)) ∧
      (pick all mask).length + (pick all (mask.map not)).length = all.length ∧
      (pick all mask ++ pick all (mask.map not)).Perm all :=
  ⟨by decide, completed_incompleted_partition initialTodoState Obj.empty (by decide)⟩

/-- C4: after `doAddTodo(id, name)` the notification state maps `id` to
'Todo Created ' followed by `name` and agrees with the old state on every other
key; after `doRemoveNotification(id)` it has no entry for `id` and agrees with
the old state on every other key; when `id` had no entry at the start, the two
steps give back the original notification state. -/
theorem notification_add_then_hide (state : NotificationState) (id name : String) :
    (∀ key, notificationReducer state (doAddTodo id name) key =
      if key = id then some ("Todo Created " ++ name) else state key) ∧
    (∀ key, notificationReducer (notificationReducer state (doAddTodo id name))
        (doRemoveNotification id) key =
      if key = id then none else state key) ∧
    (state id = none →
      notificationReducer (notificationReducer state (doAddTodo id name))
        (doRemoveNotification id) = state) := by
  refine ⟨fun key => rfl, fun key => ?_, fun h => ?_⟩
  · by_cases e : key = id <;>
      simp [notificationReducer, doAddTodo, doRemoveNotification, applyShowNotification,
        applyRemoveNotification, Obj.rest, Obj.set, e]
  · exact Obj.rest_set state id _ h

/-- C4 witness: the empty notification state, id '7', name 'milk'. -/
theorem notification_add_then_hide_witness :
    (Obj.empty : NotificationState) "7" = none ∧
    notificationReducer (notificationReducer Obj.empty (doAddTodo "7" "milk"))
      (doRemoveNotification "7") = Obj.empty :=
  ⟨rfl, (notification_add_then_hide Obj.empty "7" "milk").2.2 rfl⟩

/-- C5: the invariant that every element of `ids` has an entity holds in the
initial todo state; `todoReducer` accepts every TODO_ADD, every TODO_TOGGLE of a
present id and every action of another type (returning the state unchanged);
every state it returns from a state with the invariant has the invariant; so
every reachable state has it. -/
theorem idsHaveEntities_invariant :
    idsHaveEntities initialTodoState ∧
    (∀ (s : TodoState) (id name : String),
      todoReducer s (doAddTodo id name) = Except.ok (applyAddTodo s id name)) ∧
    (∀ (s : TodoState) (id : String), (s.entities id).isSome = true →
      ∃ t, todoReducer s (doToggleTodo id) = Except.ok t) ∧
    (∀ (s : TodoState) (a : Action), (∀ id name, a ≠ Action.TODO_ADD id name) →
      (∀ id, a ≠ Action.TODO_TOGGLE id) → todoReducer s a = Except.ok s) ∧
    (∀ (s t : TodoState) (a : Action), idsHaveEntities s → todoReducer s a = Except.ok t →
      idsHaveEntities t) ∧
    (∀ s : TodoState, Reachable s → idsHaveEntities s) := by
  refine ⟨by decide, fun s id name => rfl, ?_, ?_, idsHaveEntities_step, ?_⟩
  · intro s id hs
    cases hent : s.entities id with
    | none => simp [hent] at hs
    | some v => exact ⟨_, todoReducer_toggle_some s id v hent⟩
  · exact todoReducer_other
  · intro s hs
    induction hs with
    | init => decide
    | step s t a _ hstep ih => exact idsHaveEntities_step s t a ih hstep

/-- C5 witness: the state after adding '11' to the initial todo state is
reachable and has the invariant. -/
theorem idsHaveEntities_invariant_witness :
    Reachable (applyAddTodo initialTodoState "11" "x") ∧
    idsHaveEntities (applyAddTodo initialTodoState "11" "x") :=
  have hr : Reachable (applyAddTodo initialTodoState "11" "x") :=
    Reachable.step initialTodoState _ (doAddTodo "11" "x") Reachable.init rfl
  ⟨hr, idsHaveEntities_invariant.2.2.2.2.2 _ hr⟩

/-- C6, as amended: for an id without an entity, `todoReducer` applied to
`doToggleTodo(id)` is never a no-op.  When the id is not the name of a property
inherited from `Object.prototype` it throws a TypeError and returns no state;
when it is such a name it returns the input state with the new entity
`{completed: true}` stored under that id. -/
theorem toggle_absent_not_noop (state : TodoState) (id : String)
    (h : state.entities id = none) :
    (id ∉ objectPrototypeKeys →
      todoReducer state (doToggleTodo id) = Except.error JsError.typeError) ∧
    (id ∈ objectPrototypeKeys →
      todoReducer state (doToggleTodo id) =
        Except.ok { state with
          entities := state.entities.set id
            { id := none, name := none, completed := some true } }) ∧
    todoReducer state (doToggleTodo id) ≠ Except.ok state := by
  refine ⟨todoReducer_toggle_none state id h, todoReducer_toggle_inherited state id h, ?_⟩
  by_cases hk : id ∈ objectPrototypeKeys
  · rw [todoReducer_toggle_inherited state id h hk]
    intro heq
    have hent := congrArg (fun r => r.toOption.bind (fun s => s.entities id)) heq
    simp [Except.toOption, Obj.set, h] at hent
  · rw [todoReducer_toggle_none state id h hk]
    intro heq
    cases heq

/-- C6 witness: the ids 'missing' and 'constructor' in the initial todo state. -/
theorem toggle_absent_not_noop_witness :
    (initialTodoState.entities "missing" = none ∧ "missing" ∉ objectPrototypeKeys ∧
      todoReducer initialTodoState (doToggleTodo "missing") =
        Except.error JsError.typeError) ∧
    (initialTodoState.entities "constructor" = none ∧ "constructor" ∈ objectPrototypeKeys ∧
      todoReducer initialTodoState (doToggleTodo "constructor") =
        Except.ok { initialTodoState with
          entities := initialTodoState.entities.set "constructor"
            { id := none, name := none, completed := some true } }) :=
  ⟨⟨by decide, by decide,
      (toggle_absent_not_noop initialTodoState "missing" (by decide)).1 (by decide)⟩,
    ⟨by decide, by decide,
      (toggle_absent_not_noop initialTodoState "constructor" (by decide)).2.1 (by decide)⟩⟩

/-- C6 counterexample: the initial todo state has no entity 'nope', and
`todoReducer` applied to `doToggleTodo('nope')` does not return the input state:
it throws. -/
theorem toggle_absent_counterexample :
    initialTodoState.entities "nope" = none ∧
    todoReducer initialTodoState (doToggleTodo "nope") = Except.error JsError.typeError ∧
    todoReducer initialTodoState (doToggleTodo "nope") ≠ Except.ok initialTodoState :=
  have h : todoReducer initialTodoState (doToggleTodo "nope") =
      Except.error JsError.typeError :=
    todoReducer_toggle_none initialTodoState "nope" (by decide) (by decide)
  ⟨by decide, h, fun heq => by rw [h] at heq; cases heq⟩

/-- C7, what the code does: `applyAddTodo` sets the entity of `id` to
`{id, name, completed: false}` and leaves the other entities as they were, but
the element it appends to `ids` is the one-element array `[id]`, not the id: the
new `ids` differs from the old `ids` followed by the id, and the id occurs in it
as often as before. -/
theorem applyAddTodo_appends_array (state : TodoState) (id name : String) :
    todoReducer state (doAddTodo id name) = Except.ok (applyAddTodo state id name) ∧
    (∀ key, (applyAddTodo state id name).entities key =
      if key = id then some { id := some id, name := some name, completed := some false }
      else state.entities key) ∧
    (applyAddTodo state id name).ids = state.ids ++ [IdEntry.arr id] ∧
    (applyAddTodo state id name).ids ≠ state.ids ++ [IdEntry.str id] ∧
    (applyAddTodo state id name).ids.count (IdEntry.str id) =
      state.ids.count (IdEntry.str id) := by
  refine ⟨rfl, fun key => rfl, rfl, ?_, ?_⟩
  · simp [applyAddTodo]
  · simp [applyAddTodo, List.count_append]

/-- C8: when every element of `ids` has an entity, `getTodosAsIds` returns the
ids of the todos that satisfy the predicate of the active filter, in the order
of `ids`; for the single todo `{id: 1, name: 'A', completed: false}` that is
[1] under SHOW_ALL and [] under SHOW_COMPLETED. -/
theorem getTodosAsIds_spec (s : State) (h : idsHaveEntities s.todoState) :
    getTodosAsIds s = Except.ok (visibleIds s) ∧
    getTodosAsIds (exampleState Filter.SHOW_ALL) = Except.ok [some "1"] ∧
    getTodosAsIds (exampleState Filter.SHOW_COMPLETED) = Except.ok [] :=
  ⟨getTodosAsIds_visibleIds s h, by decide, by decide⟩

/-- C8 witness: the example state under SHOW_INCOMPLETED. -/
theorem getTodosAsIds_spec_witness :
    idsHaveEntities (exampleState Filter.SHOW_INCOMPLETED).todoState ∧
    (getTodosAsIds (exampleState Filter.SHOW_INCOMPLETED) =
        Except.ok (visibleIds (exampleState Filter.SHOW_INCOMPLETED)) ∧
      getTodosAsIds (exampleState Filter.SHOW_ALL) = Except.ok [some "1"] ∧
      getTodosAsIds (exampleState Filter.SHOW_COMPLETED) = Except.ok []) :=
  ⟨by decide, getTodosAsIds_spec (exampleState Filter.SHOW_INCOMPLETED) (by decide)⟩

/-- C9: for every dispatch function, running the thunk of
`thunkedDoAddTodo(id, name)` has the effects of one call `dispatch(doAddTodo(id,
name))` followed by the registration of one timer of 5000 ms whose callback has
the effects of one call `dispatch(doRemoveNotification(id))`, and nothing else;
with a dispatch function that records its argument these are exactly two
effects. -/
theorem thunkedDoAddTodo_effects (id name : String) :
    (∀ dispatch : Action → List Effect,
      thunkedDoAddTodo id name dispatch =
        dispatch (doAddTodo id name) ++
          [Effect.timer 5000 (dispatch (doRemoveNotification id))]) ∧
    thunkedDoAddTodo id name recordDispatch =
      [Effect.dispatched (doAddTodo id name),
       Effect.timer 5000 [Effect.dispatched (doRemoveNotification id)]] :=
  ⟨fun _ => rfl, rfl⟩

/-- C10: for an id with an entity, `todoReducer` accepts `doToggleTodo(id)`; in
the new state that entity has the same id and name and the negated `completed`,
every other entity is as before and `ids` is as before. -/
theorem toggle_changes_only_completed (state : TodoState) (id : String) (t : Todo)
    (h : state.entities id = some t) :
    ∃ s : TodoState,
      todoReducer state (doToggleTodo id) = Except.ok s ∧
      (∀ key, s.entities key =
        if key = id then
          some { id := t.id, name := t.name, completed := some (!(truthy t.completed)) }
        else state.entities key) ∧
      s.ids = state.ids :=
  ⟨_, todoReducer_toggle_some state id t h, fun _ => rfl, rfl⟩

/-- C10 witness: toggling the seed todo '3' of the initial todo state. -/
theorem toggle_changes_only_completed_witness :
    initialTodoState.entities "3" =
      some { id := some "3", name := some "Hands On: Bootstrap App with Redux",
             completed := none } ∧
    ∃ s : TodoState,
      todoReducer initialTodoState (doToggleTodo "3") = Except.ok s ∧
      (∀ key, s.entities key =
        if key = "3" then
          some { id := some "3", name := some "Hands On: Bootstrap App with Redux",
                 completed := some (!(truthy none)) }
        else initialTodoState.entities key) ∧
      s.ids = initialTodoState.ids :=
  ⟨by decide, toggle_changes_only_completed initialTodoState "3"
    { id := some "3", name := some "Hands On: Bootstrap App with Redux", completed := none }
    (by decide)⟩

end TodoApp
